import Mathlib

/-!
Verification of `src/web/src/modules/layerService.js` (maps2).

JavaScript numbers are modelled by `ℚ` (exact reals suffice for the ordering
and `+ 1` arithmetic these helpers perform); JavaScript property values by the
inductive `JSVal`, with `undef` for a missing key and `nan` for the NaN number.
-/

/-- A JavaScript value as stored in a GeoJSON property bag. -/
inductive JSVal where
  | num (q : ℚ)
  | nan
  | str (s : String)
  | boolV (b : Bool)
  | nullV
  | undef
deriving DecidableEq

/-- A GeoJSON feature: its property bag, `properties` in the source. -/
structure Feature where
  properties : List (String × JSVal)
deriving DecidableEq

/-- A GeoJSON feature collection (`geoJsonData` in the source). -/
structure GeoJson where
  features : List Feature
deriving DecidableEq

/-- The JavaScript property read `f.properties[statisticKey]`: the stored
value, or `undefined` when the key is absent. -/
def propLookup (props : List (String × JSVal)) (key : String) : JSVal :=
  match props.find? (fun p => p.1 == key) with
  | some p => p.2
  | none => JSVal.undef

/-- The filter `typeof val === 'number' && !isNaN(val) && val !== null` of
`getMinMaxFromGeoJson`, fused with the numeric extraction: only a genuine
number passes (`nan` has number type but fails `!isNaN`; `null` is not of
number type, so the last conjunct is redundant). -/
def numValue? : JSVal → Option ℚ
  | JSVal.num q => some q
  | _ => none

/-- The local `values` array of `getMinMaxFromGeoJson`:
`geoJsonData.features.map(f => f.properties[statisticKey]).filter(...)`. -/
def numericValues (g : GeoJson) (key : String) : List ℚ :=
  (g.features.map (fun f => propLookup f.properties key)).filterMap numValue?

/-- The body of `getMinMaxFromGeoJson` after `values` is built: return
`[0, 0]` on an empty list, else `minValue = Math.min(...values)` and
`maxValue = Math.max(...values)`, widening a degenerate range to
`[minValue, minValue + 1]`. -/
def minMaxOfValues : List ℚ → ℚ × ℚ
  | [] => (0, 0)
  | v :: vs =>
    if vs.foldl min v = vs.foldl max v then (vs.foldl min v, vs.foldl min v + 1)
    else (vs.foldl min v, vs.foldl max v)

/-- The exported `getMinMaxFromGeoJson(geoJsonData, statisticKey)`. -/
def getMinMaxFromGeoJson (g : GeoJson) (key : String) : ℚ × ℚ :=
  minMaxOfValues (numericValues g key)

lemma foldl_min_mem (l : List ℚ) (a : ℚ) : l.foldl min a = a ∨ l.foldl min a ∈ l := by
  induction l generalizing a with
  | nil => exact Or.inl rfl
  | cons b t ih =>
    rw [List.foldl_cons]
    rcases ih (min a b) with h | h
    · rcases min_choice a b with hm | hm
      · exact Or.inl (h.trans hm)
      · exact Or.inr (by rw [h, hm]; exact List.mem_cons_self _ _)
    · exact Or.inr (List.mem_cons_of_mem _ h)

lemma foldl_min_le (l : List ℚ) (a : ℚ) :
    l.foldl min a ≤ a ∧ ∀ x ∈ l, l.foldl min a ≤ x := by
  induction l generalizing a with
  | nil => exact ⟨le_refl a, fun x hx => absurd hx (List.not_mem_nil x)⟩
  | cons b t ih =>
    rw [List.foldl_cons]
    obtain ⟨h1, h2⟩ := ih (min a b)
    refine ⟨h1.trans (min_le_left a b), fun x hx => ?_⟩
    rcases List.mem_cons.mp hx with hxb | hxt
    · exact hxb ▸ h1.trans (min_le_right a b)
    · exact h2 x hxt

lemma foldl_max_mem (l : List ℚ) (a : ℚ) : l.foldl max a = a ∨ l.foldl max a ∈ l := by
  induction l generalizing a with
  | nil => exact Or.inl rfl
  | cons b t ih =>
    rw [List.foldl_cons]
    rcases ih (max a b) with h | h
    · rcases max_choice a b with hm | hm
      · exact Or.inl (h.trans hm)
      · exact Or.inr (by rw [h, hm]; exact List.mem_cons_self _ _)
    · exact Or.inr (List.mem_cons_of_mem _ h)

lemma le_foldl_max (l : List ℚ) (a : ℚ) :
    a ≤ l.foldl max a ∧ ∀ x ∈ l, x ≤ l.foldl max a := by
  induction l generalizing a with
  | nil => exact ⟨le_refl a, fun x hx => absurd hx (List.not_mem_nil x)⟩
  | cons b t ih =>
    rw [List.foldl_cons]
    obtain ⟨h1, h2⟩ := ih (max a b)
    refine ⟨(le_max_left a b).trans h1, fun x hx => ?_⟩
    rcases List.mem_cons.mp hx with hxb | hxt
    · exact hxb ▸ (le_max_right a b).trans h1
    · exact h2 x hxt

/-- Claim C1: on a collection whose numeric values for the key include two
distinct values, `getMinMaxFromGeoJson` returns the true minimum and the true
maximum of those numeric values (missing, non-numeric and NaN entries are
excluded by construction of `numericValues`). -/
theorem getMinMax_distinct_correct (g : GeoJson) (key : String)
    (h : ∃ a ∈ numericValues g key, ∃ b ∈ numericValues g key, a ≠ b) :
    (getMinMaxFromGeoJson g key).1 ∈ numericValues g key ∧
    (getMinMaxFromGeoJson g key).2 ∈ numericValues g key ∧
    ∀ x ∈ numericValues g key,
      (getMinMaxFromGeoJson g key).1 ≤ x ∧ x ≤ (getMinMaxFromGeoJson g key).2 := by
  obtain ⟨a, ha, b, hb, hab⟩ := h
  unfold getMinMaxFromGeoJson
  cases hlist : numericValues g key with
  | nil => rw [hlist] at ha; exact absurd ha (List.not_mem_nil a)
  | cons v vs =>
    rw [hlist] at ha hb
    have hmin_mem : vs.foldl min v ∈ v :: vs := by
      rcases foldl_min_mem vs v with h | h
      · rw [h]; exact List.mem_cons_self _ _
      · exact List.mem_cons_of_mem _ h
    have hmax_mem : vs.foldl max v ∈ v :: vs := by
      rcases foldl_max_mem vs v with h | h
      · rw [h]; exact List.mem_cons_self _ _
      · exact List.mem_cons_of_mem _ h
    have hmin_le : ∀ x ∈ v :: vs, vs.foldl min v ≤ x := by
      intro x hx
      rcases List.mem_cons.mp hx with hxv | hxt
      · exact hxv ▸ (foldl_min_le vs v).1
      · exact (foldl_min_le vs v).2 x hxt
    have hle_max : ∀ x ∈ v :: vs, x ≤ vs.foldl max v := by
      intro x hx
      rcases List.mem_cons.mp hx with hxv | hxt
      · exact hxv ▸ (le_foldl_max vs v).1
      · exact (le_foldl_max vs v).2 x hxt
    have hne : vs.foldl min v ≠ vs.foldl max v := by
      intro heq
      apply hab
      have h1 : a = vs.foldl min v :=
        le_antisymm (heq ▸ hle_max a ha) (hmin_le a ha)
      have h2 : b = vs.foldl min v :=
        le_antisymm (heq ▸ hle_max b hb) (hmin_le b hb)
      rw [h1, h2]
    rw [minMaxOfValues, if_neg hne]
    exact ⟨hmin_mem, hmax_mem, fun x hx => ⟨hmin_le x hx, hle_max x hx⟩⟩

/-- Concrete input for the range-extraction theorems: numeric values 3 and 5
for key "pop", plus a string value and a missing key that must be ignored. -/
def gEx : GeoJson :=
  ⟨[⟨[("pop", JSVal.num 3)]⟩, ⟨[("pop", JSVal.num 5)]⟩,
    ⟨[("pop", JSVal.str "x")]⟩, ⟨[("name", JSVal.str "a")]⟩]⟩

theorem getMinMax_distinct_correct_witness :
    (∃ a ∈ numericValues gEx "pop", ∃ b ∈ numericValues gEx "pop", a ≠ b) ∧
    ((getMinMaxFromGeoJson gEx "pop").1 ∈ numericValues gEx "pop" ∧
     (getMinMaxFromGeoJson gEx "pop").2 ∈ numericValues gEx "pop" ∧
     ∀ x ∈ numericValues gEx "pop",
       (getMinMaxFromGeoJson gEx "pop").1 ≤ x ∧ x ≤ (getMinMaxFromGeoJson gEx "pop").2) :=
  ⟨by decide, getMinMax_distinct_correct gEx "pop" (by decide)⟩

lemma getMinMax_no_numeric (g : GeoJson) (key : String)
    (h : ∀ f ∈ g.features, numValue? (propLookup f.properties key) = none) :
    getMinMaxFromGeoJson g key = (0, 0) := by
  have hnil : numericValues g key = [] := by
    unfold numericValues
    rw [List.filterMap_eq_nil_iff]
    intro v hv
    obtain ⟨f, hf, rfl⟩ := List.mem_map.mp hv
    exact h f hf
  unfold getMinMaxFromGeoJson
  rw [hnil]
  rfl

/-- Claim C2: when no feature carries a numeric value for the key (absent,
non-numeric or NaN everywhere), `getMinMaxFromGeoJson` returns `(0, 0)`. -/
theorem getMinMax_empty_fallback (g : GeoJson) (key : String)
    (h : ∀ f ∈ g.features, numValue? (propLookup f.properties key) = none) :
    getMinMaxFromGeoJson g key = (0, 0) :=
  getMinMax_no_numeric g key h

theorem getMinMax_empty_fallback_witness :
    (∀ f ∈ (GeoJson.mk [⟨[("pop", JSVal.nan)]⟩, ⟨[("name", JSVal.str "a")]⟩]).features,
       numValue? (propLookup f.properties "pop") = none) ∧
    getMinMaxFromGeoJson (GeoJson.mk [⟨[("pop", JSVal.nan)]⟩, ⟨[("name", JSVal.str "a")]⟩]) "pop"
      = (0, 0) :=
  ⟨by decide,
   getMinMax_empty_fallback (GeoJson.mk [⟨[("pop", JSVal.nan)]⟩, ⟨[("name", JSVal.str "a")]⟩])
     "pop" (by decide)⟩

/-- Claim C3: when every numeric value for the key equals the constant `c`
and at least one exists, `getMinMaxFromGeoJson` returns `(c, c + 1)`. -/
theorem getMinMax_constant_range (g : GeoJson) (key : String) (c : ℚ)
    (h1 : numericValues g key ≠ [])
    (h2 : ∀ x ∈ numericValues g key, x = c) :
    getMinMaxFromGeoJson g key = (c, c + 1) := by
  unfold getMinMaxFromGeoJson
  cases hlist : numericValues g key with
  | nil => exact absurd hlist h1
  | cons v vs =>
    rw [hlist] at h2
    have hmin : vs.foldl min v = c := by
      rcases foldl_min_mem vs v with h | h
      · rw [h]; exact h2 v (List.mem_cons_self _ _)
      · exact h2 _ (List.mem_cons_of_mem _ h)
    have hmax : vs.foldl max v = c := by
      rcases foldl_max_mem vs v with h | h
      · rw [h]; exact h2 v (List.mem_cons_self _ _)
      · exact h2 _ (List.mem_cons_of_mem _ h)
    rw [minMaxOfValues, if_pos (hmin.trans hmax.symm), hmin]

theorem getMinMax_constant_range_witness :
    ((numericValues (GeoJson.mk [⟨[("pop", JSVal.num 7)]⟩, ⟨[("pop", JSVal.num 7)]⟩]) "pop" ≠ []) ∧
     (∀ x ∈ numericValues (GeoJson.mk [⟨[("pop", JSVal.num 7)]⟩, ⟨[("pop", JSVal.num 7)]⟩]) "pop",
        x = (7 : ℚ))) ∧
    getMinMaxFromGeoJson (GeoJson.mk [⟨[("pop", JSVal.num 7)]⟩, ⟨[("pop", JSVal.num 7)]⟩]) "pop"
      = (7, 7 + 1) :=
  ⟨⟨by decide, by decide⟩,
   getMinMax_constant_range (GeoJson.mk [⟨[("pop", JSVal.num 7)]⟩, ⟨[("pop", JSVal.num 7)]⟩])
     "pop" 7 (by decide) (by decide)⟩

/-- A style layer as returned by `map.getStyle().layers`: its `id` and
`type` fields are the only ones the source reads. -/
structure StyleLayer where
  id : String
  type : String
deriving DecidableEq

/-- The parts of the Mapbox map instance this file touches: the ordered
layer registry (also the style's layer list) and the source registry. -/
structure MapState where
  layers : List StyleLayer
  sources : List String
deriving DecidableEq

/-- The read `map.getStyle().layers`. -/
def getStyleLayers (m : MapState) : List StyleLayer := m.layers

/-- The `for (const layer of layers)` loop of `findFirstSymbolLayer`:
return the first id whose layer has `type === 'symbol'`. -/
def findFirstSymbolLoop : List StyleLayer → Option String
  | [] => none
  | l :: rest => if l.type = "symbol" then some l.id else findFirstSymbolLoop rest

/-- The exported `findFirstSymbolLayer(map)`. -/
def findFirstSymbolLayer (m : MapState) : Option String :=
  findFirstSymbolLoop (getStyleLayers m)

/-- One removal operation performed on the map, for order-of-effects
reasoning. -/
inductive MapOp where
  | removeLayer (id : String)
  | removeSource (id : String)
deriving DecidableEq

/-- The guard `map.getLayer(layerId)` (truthy iff a layer with that id is
registered). -/
def getLayer (m : MapState) (layerId : String) : Bool :=
  m.layers.any (fun l => l.id == layerId)

/-- The guard `map.getSource(sourceId)`. -/
def getSource (m : MapState) (sourceId : String) : Bool :=
  m.sources.contains sourceId

/-- `map.removeLayer(id)`: removes the layer, erroring (`none`) when it is
absent — Mapbox throws in that case. -/
def removeLayer (m : MapState) (layerId : String) : Option MapState :=
  if getLayer m layerId then
    some { m with layers := m.layers.filter (fun l => !(l.id == layerId)) }
  else none

/-- `map.removeSource(id)`: removes the source, erroring when absent. -/
def removeSource (m : MapState) (sourceId : String) : Option MapState :=
  if getSource m sourceId then
    some { m with sources := m.sources.filter (fun s => !(s == sourceId)) }
  else none

/-- One iteration of the first `forEach` of `cleanupLayers`:
`if (map.getLayer(layerId)) map.removeLayer(layerId)`, with the performed
operation appended to the trace. -/
def cleanupLayerStep (acc : Option (MapState × List MapOp)) (layerId : String) :
    Option (MapState × List MapOp) :=
  acc.bind (fun st =>
    if getLayer st.1 layerId then
      (removeLayer st.1 layerId).map (fun m2 => (m2, st.2 ++ [MapOp.removeLayer layerId]))
    else some st)

/-- One iteration of the second `forEach` of `cleanupLayers`. -/
def cleanupSourceStep (acc : Option (MapState × List MapOp)) (sourceId : String) :
    Option (MapState × List MapOp) :=
  acc.bind (fun st =>
    if getSource st.1 sourceId then
      (removeSource st.1 sourceId).map (fun m2 => (m2, st.2 ++ [MapOp.removeSource sourceId]))
    else some st)

/-- The exported `cleanupLayers(map, layerIds, sourceIds)`: layers first,
then sources; `none` would mean an uncaught exception, and the trace lists
the removals in the order they were performed. -/
def cleanupLayers (m : MapState) (layerIds sourceIds : List String) :
    Option (MapState × List MapOp) :=
  sourceIds.foldl cleanupSourceStep (layerIds.foldl cleanupLayerStep (some (m, [])))

lemma beq_eq_decideEq (a b : String) : (a == b) = decide (a = b) := by
  cases hbeq : a == b with
  | false => exact (decide_eq_false (ne_of_beq_false hbeq)).symm
  | true => exact (decide_eq_true (eq_of_beq hbeq)).symm

lemma cleanupLayerPhase_spec (lids : List String) :
    ∀ (s : MapState) (tr : List MapOp),
    ∃ tr2, lids.foldl cleanupLayerStep (some (s, tr)) =
      some (⟨s.layers.filter (fun l => !(lids.contains l.id)), s.sources⟩, tr ++ tr2) ∧
      ∀ op ∈ tr2, ∃ i, op = MapOp.removeLayer i := by
  induction lids with
  | nil =>
    intro s tr
    refine ⟨[], ?_, fun op h => absurd h (List.not_mem_nil op)⟩
    have hf : (fun (l : StyleLayer) => !(([] : List String).contains l.id)) =
        (fun _ => true) := by
      funext l; rfl
    rw [List.foldl_nil, hf, List.filter_true, List.append_nil]
  | cons hd rest ih =>
    intro s tr
    rw [List.foldl_cons]
    cases hg : getLayer s hd with
    | true =>
      have hstep : cleanupLayerStep (some (s, tr)) hd =
          some (⟨s.layers.filter (fun l => !(l.id == hd)), s.sources⟩,
                tr ++ [MapOp.removeLayer hd]) := by
        simp [cleanupLayerStep, removeLayer, hg]
      rw [hstep]
      obtain ⟨tr2, hfold, htr2⟩ :=
        ih ⟨s.layers.filter (fun l => !(l.id == hd)), s.sources⟩ (tr ++ [MapOp.removeLayer hd])
      refine ⟨MapOp.removeLayer hd :: tr2, ?_, ?_⟩
      · rw [hfold]
        have hflt : (s.layers.filter (fun l => !(l.id == hd))).filter
              (fun l => !(rest.contains l.id))
            = s.layers.filter (fun l => !((hd :: rest).contains l.id)) := by
          rw [List.filter_filter]
          refine List.filter_congr ?_
          intro x _
          simp [List.contains_cons, Bool.not_or, Bool.and_comm, beq_eq_decideEq]
        simp only [hflt, List.append_assoc, List.singleton_append]
      · intro op hop
        rcases List.mem_cons.mp hop with h | h
        · exact ⟨hd, h⟩
        · exact htr2 op h
    | false =>
      have hstep : cleanupLayerStep (some (s, tr)) hd = some (s, tr) := by
        simp [cleanupLayerStep, hg]
      rw [hstep]
      obtain ⟨tr2, hfold, htr2⟩ := ih s tr
      refine ⟨tr2, ?_, htr2⟩
      rw [hfold]
      have hcongr : s.layers.filter (fun l => !(rest.contains l.id))
          = s.layers.filter (fun l => !((hd :: rest).contains l.id)) := by
        refine List.filter_congr ?_
        intro x hx
        have hxid : (x.id == hd) = false := by
          have hall := List.any_eq_false.mp hg
          have := hall x hx
          exact Bool.not_eq_true _ ▸ (by simpa using this)
        have hne : ¬ x.id = hd := ne_of_beq_false hxid
        simp [List.contains_cons, hxid, hne]
      rw [hcongr]

lemma cleanupSourcePhase_spec (sids : List String) :
    ∀ (s : MapState) (tr : List MapOp),
    ∃ tr2, sids.foldl cleanupSourceStep (some (s, tr)) =
      some (⟨s.layers, s.sources.filter (fun x => !(sids.contains x))⟩, tr ++ tr2) ∧
      ∀ op ∈ tr2, ∃ i, op = MapOp.removeSource i := by
  induction sids with
  | nil =>
    intro s tr
    refine ⟨[], ?_, fun op h => absurd h (List.not_mem_nil op)⟩
    have hf : (fun (x : String) => !(([] : List String).contains x)) =
        (fun _ => true) := by
      funext x; rfl
    rw [List.foldl_nil, hf, List.filter_true, List.append_nil]
  | cons hd rest ih =>
    intro s tr
    rw [List.foldl_cons]
    cases hg : getSource s hd with
    | true =>
      have hstep : cleanupSourceStep (some (s, tr)) hd =
          some (⟨s.layers, s.sources.filter (fun x => !(x == hd))⟩,
                tr ++ [MapOp.removeSource hd]) := by
        simp [cleanupSourceStep, removeSource, hg]
      rw [hstep]
      obtain ⟨tr2, hfold, htr2⟩ :=
        ih ⟨s.layers, s.sources.filter (fun x => !(x == hd))⟩ (tr ++ [MapOp.removeSource hd])
      refine ⟨MapOp.removeSource hd :: tr2, ?_, ?_⟩
      · rw [hfold]
        have hflt : (s.sources.filter (fun x => !(x == hd))).filter
              (fun x => !(rest.contains x))
            = s.sources.filter (fun x => !((hd :: rest).contains x)) := by
          rw [List.filter_filter]
          refine List.filter_congr ?_
          intro x _
          simp [List.contains_cons, Bool.not_or, Bool.and_comm, beq_eq_decideEq]
        simp only [hflt, List.append_assoc, List.singleton_append]
      · intro op hop
        rcases List.mem_cons.mp hop with h | h
        · exact ⟨hd, h⟩
        · exact htr2 op h
    | false =>
      have hstep : cleanupSourceStep (some (s, tr)) hd = some (s, tr) := by
        simp [cleanupSourceStep, hg]
      rw [hstep]
      obtain ⟨tr2, hfold, htr2⟩ := ih s tr
      refine ⟨tr2, ?_, htr2⟩
      rw [hfold]
      have hcongr : s.sources.filter (fun x => !(rest.contains x))
          = s.sources.filter (fun x => !((hd :: rest).contains x)) := by
        refine List.filter_congr ?_
        intro x hx
        have hxid : (x == hd) = false := by
          cases hbeq : x == hd with
          | false => rfl
          | true =>
            exfalso
            have hxhd : x = hd := eq_of_beq hbeq
            have hg2 : hd ∉ s.sources := by simpa [getSource] using hg
            exact hg2 (hxhd ▸ hx)
        have hne : ¬ x = hd := ne_of_beq_false hxid
        simp [List.contains_cons, hxid, hne]
      rw [hcongr]

lemma cleanupLayers_eq (m : MapState) (lids sids : List String) :
    ∃ tl ts, cleanupLayers m lids sids =
      some (⟨m.layers.filter (fun l => !(lids.contains l.id)),
             m.sources.filter (fun x => !(sids.contains x))⟩, tl ++ ts) ∧
      (∀ op ∈ tl, ∃ i, op = MapOp.removeLayer i) ∧
      (∀ op ∈ ts, ∃ i, op = MapOp.removeSource i) := by
  obtain ⟨tl, hl, htl⟩ := cleanupLayerPhase_spec lids m []
  obtain ⟨ts, hs, hts⟩ :=
    cleanupSourcePhase_spec sids
      ⟨m.layers.filter (fun l => !(lids.contains l.id)), m.sources⟩ ([] ++ tl)
  refine ⟨tl, ts, ?_, htl, hts⟩
  unfold cleanupLayers
  rw [hl, hs]
  simp

lemma findFirstSymbolLoop_eq_none (ls : List StyleLayer)
    (h : ∀ l ∈ ls, l.type ≠ "symbol") : findFirstSymbolLoop ls = none := by
  induction ls with
  | nil => rfl
  | cons a t ih =>
    rw [findFirstSymbolLoop, if_neg (h a (List.mem_cons_self _ _))]
    exact ih (fun l hl => h l (List.mem_cons_of_mem _ hl))

lemma findFirstSymbolLoop_first (pre : List StyleLayer) (l : StyleLayer)
    (post : List StyleLayer) (hl : l.type = "symbol")
    (hpre : ∀ x ∈ pre, x.type ≠ "symbol") :
    findFirstSymbolLoop (pre ++ l :: post) = some l.id := by
  induction pre with
  | nil => rw [List.nil_append, findFirstSymbolLoop, if_pos hl]
  | cons a t ih =>
    rw [List.cons_append, findFirstSymbolLoop,
        if_neg (hpre a (List.mem_cons_self _ _))]
    exact ih (fun x hx => hpre x (List.mem_cons_of_mem _ hx))

/-- Claim C5: on an ordered style-layer list, `findFirstSymbolLayer` returns
`null` when no layer has the symbol type (in particular on the empty list),
and otherwise the id of the first symbol-typed layer in list order. -/
theorem findFirstSymbolLayer_spec (m : MapState) :
    ((∀ l ∈ getStyleLayers m, l.type ≠ "symbol") → findFirstSymbolLayer m = none) ∧
    (∀ pre l post, getStyleLayers m = pre ++ l :: post → l.type = "symbol" →
       (∀ x ∈ pre, x.type ≠ "symbol") → findFirstSymbolLayer m = some l.id) := by
  constructor
  · intro h
    exact findFirstSymbolLoop_eq_none _ h
  · intro pre l post heq hl hpre
    unfold findFirstSymbolLayer
    rw [heq]
    exact findFirstSymbolLoop_first pre l post hl hpre

theorem findFirstSymbolLayer_spec_witness :
    findFirstSymbolLayer ⟨[], []⟩ = none ∧
    findFirstSymbolLayer
      ⟨[⟨"water", "fill"⟩, ⟨"place-labels", "symbol"⟩, ⟨"road-labels", "symbol"⟩], []⟩
      = some "place-labels" :=
  ⟨(findFirstSymbolLayer_spec ⟨[], []⟩).1 (by decide),
   (findFirstSymbolLayer_spec
      ⟨[⟨"water", "fill"⟩, ⟨"place-labels", "symbol"⟩, ⟨"road-labels", "symbol"⟩], []⟩).2
     [⟨"water", "fill"⟩] ⟨"place-labels", "symbol"⟩ [⟨"road-labels", "symbol"⟩]
     rfl rfl (by decide)⟩

/-- Claim C6: `cleanupLayers` removes exactly the listed layers and sources
that are present, skips absent ids without error (the result is `some`), and
leaves everything not named in the lists untouched: the final registries are
the original ones with precisely the listed ids filtered out. -/
theorem cleanupLayers_removes_listed (m : MapState) (lids sids : List String) :
    ∃ tr, cleanupLayers m lids sids =
      some (⟨m.layers.filter (fun l => !(lids.contains l.id)),
             m.sources.filter (fun x => !(sids.contains x))⟩, tr) := by
  obtain ⟨tl, ts, h, _, _⟩ := cleanupLayers_eq m lids sids
  exact ⟨tl ++ ts, h⟩

/-- Claim C7: `cleanupLayers` is idempotent — a second call with the same id
lists raises no error and leaves the state produced by the first call
unchanged. -/
theorem cleanupLayers_idempotent (m : MapState) (lids sids : List String)
    (s1 : MapState) (tr1 : List MapOp)
    (h : cleanupLayers m lids sids = some (s1, tr1)) :
    ∃ tr2, cleanupLayers s1 lids sids = some (s1, tr2) := by
  obtain ⟨tl, ts, h1, _, _⟩ := cleanupLayers_eq m lids sids
  rw [h1] at h
  have hpair := Option.some.inj h
  have hs1 : s1 = ⟨m.layers.filter (fun l => !(lids.contains l.id)),
                   m.sources.filter (fun x => !(sids.contains x))⟩ :=
    (congrArg Prod.fst hpair).symm
  subst hs1
  obtain ⟨tl2, ts2, h2, _, _⟩ := cleanupLayers_eq
    ⟨m.layers.filter (fun l => !(lids.contains l.id)),
     m.sources.filter (fun x => !(sids.contains x))⟩ lids sids
  refine ⟨tl2 ++ ts2, ?_⟩
  rw [h2]
  have hL : (m.layers.filter (fun l => !(lids.contains l.id))).filter
        (fun l => !(lids.contains l.id))
      = m.layers.filter (fun l => !(lids.contains l.id)) := by
    rw [List.filter_filter]
    exact List.filter_congr (fun x _ => Bool.and_self _)
  have hS : (m.sources.filter (fun x => !(sids.contains x))).filter
        (fun x => !(sids.contains x))
      = m.sources.filter (fun x => !(sids.contains x)) := by
    rw [List.filter_filter]
    exact List.filter_congr (fun x _ => Bool.and_self _)
  simp [hL, hS]

theorem cleanupLayers_idempotent_witness :
    (cleanupLayers ⟨[⟨"muni-fill", "fill"⟩], ["muni-src"]⟩ ["muni-fill"] ["muni-src"] =
      some (⟨[], []⟩, [MapOp.removeLayer "muni-fill", MapOp.removeSource "muni-src"])) ∧
    ∃ tr2, cleanupLayers ⟨[], []⟩ ["muni-fill"] ["muni-src"] = some (⟨[], []⟩, tr2) :=
  ⟨rfl,
   cleanupLayers_idempotent ⟨[⟨"muni-fill", "fill"⟩], ["muni-src"]⟩ ["muni-fill"]
     ["muni-src"] ⟨[], []⟩
     [MapOp.removeLayer "muni-fill", MapOp.removeSource "muni-src"] rfl⟩

/-- Claim C10: every removal trace of `cleanupLayers` splits as layer
removals followed by source removals — no `removeSource` call ever precedes
a `removeLayer` call. -/
theorem cleanupLayers_layer_ops_first (m : MapState) (lids sids : List String)
    (st : MapState) (tr : List MapOp)
    (h : cleanupLayers m lids sids = some (st, tr)) :
    ∃ tl ts, tr = tl ++ ts ∧ (∀ op ∈ tl, ∃ i, op = MapOp.removeLayer i) ∧
      (∀ op ∈ ts, ∃ i, op = MapOp.removeSource i) := by
  obtain ⟨tl, ts, h1, htl, hts⟩ := cleanupLayers_eq m lids sids
  rw [h1] at h
  have hpair := Option.some.inj h
  have htr : tr = tl ++ ts := (congrArg Prod.snd hpair).symm
  exact ⟨tl, ts, htr, htl, hts⟩

theorem cleanupLayers_layer_ops_first_witness :
    (cleanupLayers ⟨[⟨"pc6-fill", "fill"⟩], ["pc6-src"]⟩ ["pc6-fill"] ["pc6-src"] =
      some (⟨[], []⟩, [MapOp.removeLayer "pc6-fill", MapOp.removeSource "pc6-src"])) ∧
    ∃ tl ts, [MapOp.removeLayer "pc6-fill", MapOp.removeSource "pc6-src"] = tl ++ ts ∧
      (∀ op ∈ tl, ∃ i, op = MapOp.removeLayer i) ∧
      (∀ op ∈ ts, ∃ i, op = MapOp.removeSource i) :=
  ⟨rfl,
   cleanupLayers_layer_ops_first ⟨[⟨"pc6-fill", "fill"⟩], ["pc6-src"]⟩ ["pc6-fill"]
     ["pc6-src"] ⟨[], []⟩
     [MapOp.removeLayer "pc6-fill", MapOp.removeSource "pc6-src"] rfl⟩

/-- Claim C8: none of the helpers signals failure on well-shaped inputs:
`cleanupLayers` always succeeds (never `none`), no numeric data yields the
`(0, 0)` range, an all-non-symbol style yields the `null` lookup result, and
cleanup of empty id lists is a no-op on the map. -/
theorem helpers_no_exceptions :
    (∀ (m : MapState) (lids sids : List String),
       (cleanupLayers m lids sids).isSome = true) ∧
    (∀ (g : GeoJson) (key : String),
       (∀ f ∈ g.features, numValue? (propLookup f.properties key) = none) →
       getMinMaxFromGeoJson g key = (0, 0)) ∧
    (∀ m : MapState, (∀ l ∈ getStyleLayers m, l.type ≠ "symbol") →
       findFirstSymbolLayer m = none) ∧
    (∀ m : MapState, cleanupLayers m [] [] = some (m, [])) := by
  refine ⟨?_, ?_, ?_, ?_⟩
  · intro m lids sids
    obtain ⟨tl, ts, h, _, _⟩ := cleanupLayers_eq m lids sids
    rw [h]
    rfl
  · intro g key h
    exact getMinMax_no_numeric g key h
  · intro m h
    exact findFirstSymbolLoop_eq_none _ h
  · intro m
    rfl

theorem helpers_no_exceptions_witness :
    (cleanupLayers ⟨[⟨"l1", "fill"⟩], ["s1"]⟩ ["absent-layer"] ["s1"]).isSome = true ∧
    ((∀ f ∈ (GeoJson.mk [⟨[("k", JSVal.str "v")]⟩]).features,
        numValue? (propLookup f.properties "k") = none) ∧
      getMinMaxFromGeoJson (GeoJson.mk [⟨[("k", JSVal.str "v")]⟩]) "k" = (0, 0)) ∧
    ((∀ l ∈ getStyleLayers ⟨[⟨"bg", "background"⟩], []⟩, l.type ≠ "symbol") ∧
      findFirstSymbolLayer ⟨[⟨"bg", "background"⟩], []⟩ = none) ∧
    cleanupLayers ⟨[⟨"l1", "fill"⟩], ["s1"]⟩ [] [] =
      some (⟨[⟨"l1", "fill"⟩], ["s1"]⟩, []) :=
  ⟨helpers_no_exceptions.1 ⟨[⟨"l1", "fill"⟩], ["s1"]⟩ ["absent-layer"] ["s1"],
   ⟨by decide, helpers_no_exceptions.2.1 (GeoJson.mk [⟨[("k", JSVal.str "v")]⟩]) "k" (by decide)⟩,
   ⟨by decide, helpers_no_exceptions.2.2.1 ⟨[⟨"bg", "background"⟩], []⟩ (by decide)⟩,
   helpers_no_exceptions.2.2.2 ⟨[⟨"l1", "fill"⟩], ["s1"]⟩⟩

/-- A Mapbox GL style expression: a nested JSON structure of strings,
numbers, booleans and arrays, consumed opaquely by the renderer. -/
inductive StyleExpr where
  | str (s : String)
  | num (q : ℚ)
  | boolE (b : Bool)
  | arr (es : List StyleExpr)

/-- The chroma-js surface the source uses, abstract over the third-party
color type: `chroma.scale(colors).domain(domain).mode(mode)` applied to a
value yields a color; `.brighten()` and `.hex()` post-process it. -/
structure ChromaLib (Color : Type) where
  scale : List String → List ℚ → String → ℚ → Color
  brighten : Color → Color
  hex : Color → String

/-- The statistic read `['coalesce', ['get', statisticKey], 0]` appearing in
both branches of the returned expression. -/
def statInput (key : String) : StyleExpr :=
  StyleExpr.arr [StyleExpr.str "coalesce",
    StyleExpr.arr [StyleExpr.str "get", StyleExpr.str key], StyleExpr.num 0]

/-- The exported `getDynamicFillColorExpression(geoJsonData, statisticKey)`,
parameterised by the chroma-js implementation. -/
def getDynamicFillColorExpression {Color : Type} (chroma : ChromaLib Color)
    (g : GeoJson) (key : String) : StyleExpr :=
  let minValue := (getMinMaxFromGeoJson g key).1
  let maxValue := (getMinMaxFromGeoJson g key).2
  let colorScale : ℚ → Color :=
    chroma.scale ["#add8e6", "#4682b4", "#00008b"] [minValue, maxValue] "lab"
  StyleExpr.arr [
    StyleExpr.str "case",
    StyleExpr.arr [StyleExpr.str "boolean",
      StyleExpr.arr [StyleExpr.str "feature-state", StyleExpr.str "hover"],
      StyleExpr.boolE false],
    StyleExpr.arr [StyleExpr.str "interpolate",
      StyleExpr.arr [StyleExpr.str "linear"],
      StyleExpr.arr [StyleExpr.str "coalesce",
        StyleExpr.arr [StyleExpr.str "get", StyleExpr.str key], StyleExpr.num 0],
      StyleExpr.num minValue, StyleExpr.str (chroma.hex (chroma.brighten (colorScale minValue))),
      StyleExpr.num maxValue, StyleExpr.str (chroma.hex (chroma.brighten (colorScale maxValue)))],
    StyleExpr.arr [StyleExpr.str "interpolate",
      StyleExpr.arr [StyleExpr.str "linear"],
      StyleExpr.arr [StyleExpr.str "coalesce",
        StyleExpr.arr [StyleExpr.str "get", StyleExpr.str key], StyleExpr.num 0],
      StyleExpr.num minValue, StyleExpr.str (chroma.hex (colorScale minValue)),
      StyleExpr.num maxValue, StyleExpr.str (chroma.hex (colorScale maxValue))]]

/-- Claim C4: the built expression is a `case` conditional on the feature's
hover state whose positive branch is a brightened linear interpolation and
whose negative branch the unbrightened one, both over the domain extracted by
`getMinMaxFromGeoJson` with the lab-mode three-stop color scale. -/
theorem getDynamicFillColor_case_structure {Color : Type} (chroma : ChromaLib Color)
    (g : GeoJson) (key : String) :
    getDynamicFillColorExpression chroma g key = StyleExpr.arr [
      StyleExpr.str "case",
      StyleExpr.arr [StyleExpr.str "boolean",
        StyleExpr.arr [StyleExpr.str "feature-state", StyleExpr.str "hover"],
        StyleExpr.boolE false],
      StyleExpr.arr [StyleExpr.str "interpolate",
        StyleExpr.arr [StyleExpr.str "linear"], statInput key,
        StyleExpr.num (getMinMaxFromGeoJson g key).1,
        StyleExpr.str (chroma.hex (chroma.brighten
          (chroma.scale ["#add8e6", "#4682b4", "#00008b"]
            [(getMinMaxFromGeoJson g key).1, (getMinMaxFromGeoJson g key).2] "lab"
            (getMinMaxFromGeoJson g key).1))),
        StyleExpr.num (getMinMaxFromGeoJson g key).2,
        StyleExpr.str (chroma.hex (chroma.brighten
          (chroma.scale ["#add8e6", "#4682b4", "#00008b"]
            [(getMinMaxFromGeoJson g key).1, (getMinMaxFromGeoJson g key).2] "lab"
            (getMinMaxFromGeoJson g key).2)))],
      StyleExpr.arr [StyleExpr.str "interpolate",
        StyleExpr.arr [StyleExpr.str "linear"], statInput key,
        StyleExpr.num (getMinMaxFromGeoJson g key).1,
        StyleExpr.str (chroma.hex
          (chroma.scale ["#add8e6", "#4682b4", "#00008b"]
            [(getMinMaxFromGeoJson g key).1, (getMinMaxFromGeoJson g key).2] "lab"
            (getMinMaxFromGeoJson g key).1)),
        StyleExpr.num (getMinMaxFromGeoJson g key).2,
        StyleExpr.str (chroma.hex
          (chroma.scale ["#add8e6", "#4682b4", "#00008b"]
            [(getMinMaxFromGeoJson g key).1, (getMinMaxFromGeoJson g key).2] "lab"
            (getMinMaxFromGeoJson g key).2))]] :=
  rfl

/-- Mapbox GL's documented evaluation of `['coalesce', ['get', key], 0]` on a
feature: `get` yields null for an absent property and `coalesce` returns the
first non-null output, so a missing property reads as the literal 0. The
renderer is a third-party dependency, so this evaluation step is modelled
from its documented semantics; the expression itself comes from the source. -/
def evalStatInput (f : Feature) (key : String) : JSVal :=
  match propLookup f.properties key with
  | JSVal.undef => JSVal.num 0
  | JSVal.nullV => JSVal.num 0
  | v => v

/-- Claim C9: both the hovered and non-hovered branches read the statistic as
`['coalesce', ['get', statisticKey], 0]`, and on a feature missing the
property that read evaluates to 0, whatever the extracted domain is. -/
theorem getDynamicFillColor_coalesce_zero {Color : Type} (chroma : ChromaLib Color)
    (g : GeoJson) (key : String) :
    (∃ c1 c2 c3 c4 : String,
      getDynamicFillColorExpression chroma g key = StyleExpr.arr [
        StyleExpr.str "case",
        StyleExpr.arr [StyleExpr.str "boolean",
          StyleExpr.arr [StyleExpr.str "feature-state", StyleExpr.str "hover"],
          StyleExpr.boolE false],
        StyleExpr.arr [StyleExpr.str "interpolate",
          StyleExpr.arr [StyleExpr.str "linear"], statInput key,
          StyleExpr.num (getMinMaxFromGeoJson g key).1, StyleExpr.str c1,
          StyleExpr.num (getMinMaxFromGeoJson g key).2, StyleExpr.str c2],
        StyleExpr.arr [StyleExpr.str "interpolate",
          StyleExpr.arr [StyleExpr.str "linear"], statInput key,
          StyleExpr.num (getMinMaxFromGeoJson g key).1, StyleExpr.str c3,
          StyleExpr.num (getMinMaxFromGeoJson g key).2, StyleExpr.str c4]]) ∧
    ∀ f : Feature, propLookup f.properties key = JSVal.undef →
      evalStatInput f key = JSVal.num 0 := by
  constructor
  · exact ⟨_, _, _, _, rfl⟩
  · intro f hf
    unfold evalStatInput
    rw [hf]

/-- A trivial chroma-js instance over the unit color type, for concrete
evaluation. -/
def unitChroma : ChromaLib Unit :=
  ⟨fun _ _ _ _ => (), fun _ => (), fun _ => "#000000"⟩

theorem getDynamicFillColor_coalesce_zero_witness :
    propLookup (Feature.mk [("name", JSVal.str "a")]).properties "pop" = JSVal.undef ∧
    evalStatInput (Feature.mk [("name", JSVal.str "a")]) "pop" = JSVal.num 0 :=
  ⟨rfl,
   (getDynamicFillColor_coalesce_zero unitChroma (GeoJson.mk []) "pop").2
     (Feature.mk [("name", JSVal.str "a")]) rfl⟩
